import Mathlib

/-!
Verification of the incident-reporting API route
(`src/pages/api/incidents/index.ts`): the incident record access and
authorization layer.  The handler is embedded shallowly: the parsed
request (session, query parameters, body fields) is given as explicit
arguments, the document store is a list of incident records, and each
HTTP branch of the handler becomes a pure function returning the
response outcome together with the post-state of the store.
-/

namespace IncidentApi

/-- Snapshot of a name and email pair, as stored in `updatedBy` and in
the reported-by part of a list response. -/
structure NameEmail where
  name : String
  email : String
  deriving DecidableEq, Repr

/-- The `reportedBy` snapshot embedded in an incident on creation:
`{_id: user._id, name: user.name, email: user.email}`. -/
structure ReportedBy where
  uid : String
  name : String
  email : String
  deriving DecidableEq, Repr

/-- The `location` subdocument `{address, coordinates}`; `coordinates`
is always set to null by the create branch. -/
structure Location where
  address : String
  coordinates : Option String
  deriving DecidableEq, Repr

/-- A comment attached to an incident (the incidents route only carries
the list along, it never reads into a comment). -/
structure Comment where
  content : String
  author : NameEmail
  createdAt : Nat
  deriving DecidableEq, Repr

/-- An incident document as the create branch writes it.  Timestamps are
modelled as natural numbers. -/
structure Incident where
  id : String
  title : String
  location : Location
  type : String
  severity : String
  description : String
  photoUrl : Option String
  status : String
  reportedBy : ReportedBy
  comments : List Comment
  createdAt : Nat
  updatedAt : Nat
  updatedBy : Option NameEmail
  deriving DecidableEq, Repr

/-- A user document from the `users` collection. -/
structure UserRec where
  uid : String
  name : String
  email : String
  deriving DecidableEq, Repr

/-- The authenticated session user (`session.user`). -/
structure SessionUser where
  email : String
  name : String
  userType : String
  deriving DecidableEq, Repr

/-- JavaScript truthiness of an optional string field: absent and the
empty string are falsy. -/
def truthy : Option String → Bool
  | none => false
  | some s => !s.isEmpty

/-- Defaulting `x || d` on the result of `parseInt`: `none` models `NaN` (absent or
non-numeric input) and the numeric value `0` is falsy, so both fall back
to the default. -/
def jsOr (x : Option Int) (d : Int) : Int :=
  match x with
  | none => d
  | some n => if n = 0 then d else n

/-! ### The search filter (GET branch, lines 43-53)

The raw search term is handed to the store as `$regex` with option
`i`.  The regex engine of the store is embedded for the fragment
exercised by this route: patterns made of literal characters and the
any-character metacharacter, matched case-insensitively and unanchored.
-/

/-- Does the pattern match a prefix of the text?  A pattern character
matches one text character if it is the any-character metacharacter or
if the two agree up to case (option `i`). -/
def patHere : List Char → List Char → Bool
  | [], _ => true
  | _ :: _, [] => false
  | p :: ps, c :: cs => (p = '.' || p.toLower = c.toLower) && patHere ps cs

/-- Unanchored case-insensitive regex test: the pattern matches at some
position of the text. -/
def regexTestI (pat text : String) : Bool :=
  (text.data.tails).any (fun suf => patHere pat.data suf)

/-- The filter built by the GET branch: no (or an empty, hence falsy)
search term matches every record; otherwise the term is regex-tested
against `title`, `location.address`, `type` and `description`. -/
def matchesSearch (search : Option String) (r : Incident) : Bool :=
  match search with
  | none => true
  | some s =>
    if s.isEmpty then true
    else
      regexTestI s r.title || regexTestI s r.location.address ||
        regexTestI s r.type || regexTestI s r.description

/-! ### The GET branch (list incidents, lines 36-98) -/

/-- Descending sort key used by `.sort(\x7bcreatedAt: -1\x7d)`. -/
def byCreatedAtDesc (a b : Incident) : Prop := b.createdAt ≤ a.createdAt

instance : DecidableRel byCreatedAtDesc := fun _ _ => Nat.decLe _ _

instance : IsTotal Incident byCreatedAtDesc :=
  ⟨fun a b => Nat.le_total b.createdAt a.createdAt⟩

instance : IsTrans Incident byCreatedAtDesc :=
  ⟨fun _ _ _ h h2 => Nat.le_trans h2 h⟩

/-- An incident as shaped by the response mapping of the GET branch
(lines 66-83): `updatedAt` and `updatedBy` are dropped, and falsy stored
values fall back to defaults. -/
structure RespIncident where
  id : String
  title : String
  address : String
  type : String
  severity : String
  status : String
  description : String
  photoUrl : Option String
  reportedBy : NameEmail
  createdAt : Nat
  comments : List Comment
  deriving DecidableEq, Repr

/-- The per-record normalisation of the GET branch.  On a well-typed
record it is the identity except where the stored value is falsy:
an empty `status` falls back to `pending`, an empty `photoUrl` string
to null, and a zero `createdAt` to the current time. -/
def normalizeIncident (now : Nat) (r : Incident) : RespIncident :=
  { id := r.id
    title := r.title
    address := r.location.address
    type := r.type
    severity := r.severity
    status := if r.status.isEmpty then "pending" else r.status
    description := r.description
    photoUrl :=
      match r.photoUrl with
      | none => none
      | some s => if s.isEmpty then none else some s
    reportedBy := ⟨r.reportedBy.name, r.reportedBy.email⟩
    createdAt := if r.createdAt = 0 then now else r.createdAt
    comments := r.comments }

/-- Embeds `Math.ceil(total / limit)` for a natural count and a positive
limit (the only regime reached after defaulting). -/
def ceilDiv (total limit : Nat) : Nat := (total + limit - 1) / limit

/-- The 200 response of the GET branch. -/
structure ListResponse where
  incidents : List RespIncident
  total : Nat
  page : Int
  totalPages : Nat
  deriving DecidableEq, Repr

/-- The GET branch: defaulting of `page` and `limit`, the search filter,
sort by `createdAt` descending, skip/limit windowing, and the response
with the total matching count and total page count. -/
def listIncidents (pageQ limitQ : Option Int) (searchQ : Option String)
    (store : List Incident) (now : Nat) : ListResponse :=
  let page := jsOr pageQ 1
  let limit := jsOr limitQ 10
  let skip := (page - 1) * limit
  let filtered := store.filter (matchesSearch searchQ)
  let sorted := List.insertionSort byCreatedAtDesc filtered
  { incidents :=
      ((sorted.drop skip.toNat).take limit.toNat).map (normalizeIncident now)
    total := filtered.length
    page := page
    totalPages := ceilDiv filtered.length limit.toNat }

/-! ### The POST branch (create incident, lines 100-174) -/

/-- The parsed multipart fields of a create request.  The handler reads
only `title`, `location`, `type`, `severity` and `description`; a
caller-supplied `reportedBy` field is never read. -/
structure CreateFields where
  title : Option String
  location : Option String
  type : Option String
  severity : Option String
  description : Option String
  reportedBy : Option ReportedBy
  deriving Repr

/-- Outcome of the POST branch. -/
inductive CreateOutcome where
  | missingFields
  | userNotFound
  | created (inc : Incident)
  deriving DecidableEq, Repr

/-- The POST branch: required-field validation, resolution of the caller
in the `users` collection, construction of the incident literal with
status `pending`, empty comments and the caller snapshot as
`reportedBy`, and insertion into the store.  `newId` stands for the
identifier assigned by the store. -/
def createIncident (session : SessionUser) (fields : CreateFields)
    (photo : Option String) (users : List UserRec) (store : List Incident)
    (now : Nat) (newId : String) : CreateOutcome × List Incident :=
  if !(truthy fields.title) || !(truthy fields.location) ||
      !(truthy fields.type) || !(truthy fields.severity) then
    (.missingFields, store)
  else
    match users.find? (fun u => u.email = session.email) with
    | none => (.userNotFound, store)
    | some user =>
      let incident : Incident :=
        { id := newId
          title := fields.title.getD ""
          location := ⟨fields.location.getD "", none⟩
          type := fields.type.getD ""
          severity := fields.severity.getD ""
          description := fields.description.getD ""
          photoUrl := photo
          status := "pending"
          reportedBy := ⟨user.uid, user.name, user.email⟩
          comments := []
          createdAt := now
          updatedAt := now
          updatedBy := none }
      (.created incident, store ++ [incident])

/-! ### The PATCH branch (update status, lines 176-221) -/

/-- The parsed PATCH body. -/
structure PatchBody where
  id : Option String
  status : Option String
  deriving Repr

/-- Outcome of the PATCH branch. -/
inductive PatchOutcome where
  | forbidden
  | validationErr (msg : String)
  | notFound
  | ok
  deriving DecidableEq, Repr

/-- The four allowed status values (line 190). -/
def validStatuses : List String := ["pending", "in_progress", "resolved", "rejected"]

/-- The `updateOne` call with a `$set`: applies `f` to the first record matching
`p`, leaving everything else unchanged. -/
def updateFirst (p : Incident → Bool) (f : Incident → Incident) :
    List Incident → List Incident
  | [] => []
  | r :: rs => if p r then f r :: rs else r :: updateFirst p f rs

/-- The PATCH branch: the role gate first (only `official`), then the
required-field check, then the status-value check, then the update that
stamps `status`, `updatedAt` and the `updatedBy` snapshot, and finally
the matched-count check. -/
def updateStatus (session : SessionUser) (body : PatchBody)
    (store : List Incident) (now : Nat) : PatchOutcome × List Incident :=
  if session.userType ≠ "official" then
    (.forbidden, store)
  else if !(truthy body.id) || !(truthy body.status) then
    (.validationErr "Incident ID and status are required", store)
  else
    let id := body.id.getD ""
    let status := body.status.getD ""
    if !(validStatuses.contains status) then
      (.validationErr "Invalid status value", store)
    else if ((store.find? (fun r => r.id = id)).isNone) then
      (.notFound, store)
    else
      (.ok,
        updateFirst (fun r => r.id = id)
          (fun r =>
            { r with
                status := status
                updatedAt := now
                updatedBy := some { email := session.email, name := session.name } })
          store)

/-! ### The DELETE branch (lines 223-259) -/

/-- Outcome of the DELETE branch. -/
inductive DeleteOutcome where
  | validationErr
  | notFound
  | forbidden
  | ok
  deriving DecidableEq, Repr

/-- The `deleteOne` call: removes the first record matching `p`. -/
def deleteFirst (p : Incident → Bool) : List Incident → List Incident
  | [] => []
  | r :: rs => if p r then rs else r :: deleteFirst p rs

/-- The DELETE branch: the required-id check, then the existence lookup
(not-found before any permission check), then the owner-or-official
gate, then the removal. -/
def deleteIncident (session : SessionUser) (idq : Option String)
    (store : List Incident) : DeleteOutcome × List Incident :=
  if !(truthy idq) then
    (.validationErr, store)
  else
    let id := idq.getD ""
    match store.find? (fun r => r.id = id) with
    | none => (.notFound, store)
    | some incident =>
      if incident.reportedBy.email ≠ session.email ∧ session.userType ≠ "official" then
        (.forbidden, store)
      else
        (.ok, deleteFirst (fun r => r.id = id) store)

/-! ### Spec-side notions used to compare against the code -/

/-- Case-insensitive prefix test on character lists (the literal,
metacharacter-free notion of matching used by the spec). -/
def isPrefixCI : List Char → List Char → Bool
  | [], _ => true
  | _ :: _, [] => false
  | p :: ps, c :: cs => (p.toLower = c.toLower) && isPrefixCI ps cs

/-- The spec notion of a search hit: the term occurs literally, up to
case, as an unanchored substring of the field. -/
def containsSubstrCI (term s : String) : Bool :=
  (s.data.tails).any (fun suf => isPrefixCI term.data suf)

/-- The metacharacters of the regex dialect of the store; a term free of
these is interpreted purely literally. -/
def regexMeta : List Char :=
  ['.', '*', '+', '?', '(', ')', '[', ']', '\x7b', '\x7d', '|', '^', '$', '\\']

end IncidentApi

namespace IncidentApi

/-! ### Shared sample data for concrete witnesses -/

/-- A sample stored incident owned by `alice@x`. -/
def sampleInc : Incident :=
  { id := "1"
    title := "Bus collision"
    location := ⟨"5th Ave", none⟩
    type := "collision"
    severity := "high"
    description := "two buses"
    photoUrl := none
    status := "pending"
    reportedBy := ⟨"u1", "Alice", "alice@x"⟩
    comments := []
    createdAt := 5
    updatedAt := 5
    updatedBy := none }

/-- A second sample incident owned by `bob@x`. -/
def sampleInc2 : Incident :=
  { sampleInc with
      id := "2"
      title := "Signal failure"
      reportedBy := ⟨"u2", "Bob", "bob@x"⟩
      createdAt := 9
      updatedAt := 9 }

/-! ### Helper lemmas -/

/-- After removing the first record with the given id from a store whose
ids are pairwise distinct, no record with that id remains. -/
theorem deleteFirst_id_not_mem (id : String) :
    ∀ store : List Incident, (store.map Incident.id).Nodup →
      ∀ r ∈ deleteFirst (fun x => x.id = id) store, r.id ≠ id := by
  intro store
  induction store with
  | nil => intro _ r hr; simp [deleteFirst] at hr
  | cons a rs ih =>
    intro hnd r hr
    simp only [List.map_cons, List.nodup_cons] at hnd
    by_cases ha : a.id = id
    · have heq : deleteFirst (fun x => x.id = id) (a :: rs) = rs := by
        simp [deleteFirst, ha]
      rw [heq] at hr
      intro hrid
      have hmem : r.id ∈ rs.map Incident.id := List.mem_map_of_mem Incident.id hr
      rw [hrid, ← ha] at hmem
      exact hnd.1 hmem
    · have heq : deleteFirst (fun x => x.id = id) (a :: rs) =
          a :: deleteFirst (fun x => x.id = id) rs := by
        simp [deleteFirst, ha]
      rw [heq] at hr
      rcases List.mem_cons.mp hr with rfl | hr2
      · exact ha
      · exact ih hnd.2 r hr2

end IncidentApi

namespace IncidentApi

/-- C1: a status-update request by an authenticated caller whose role is
not exactly `official` (including `admin` and including the owner of the
incident) fails with the Forbidden outcome and leaves the store
untouched; the role gate of the PATCH branch admits only `official`. -/
theorem c1_update_status_forbidden_for_non_official
    (session : SessionUser) (body : PatchBody) (store : List Incident)
    (now : Nat) (h : session.userType ≠ "official") :
    updateStatus session body store now = (.forbidden, store) := by
  simp [updateStatus, h]

/-- Witness for C1: an `admin` caller who also owns the record is still
rejected with Forbidden and the store is unchanged. -/
theorem c1_update_status_forbidden_for_non_official_witness :
    updateStatus ⟨"alice@x", "Alice", "admin"⟩ ⟨some "1", some "resolved"⟩
        [sampleInc] 7 = (.forbidden, [sampleInc]) :=
  c1_update_status_forbidden_for_non_official _ _ _ _ (by decide)

/-- C10: in the PATCH branch the role gate comes before input
validation: a non-`official` caller gets Forbidden even on a request
with missing or invalid fields, and a ValidationError outcome is only
reachable when the caller role is `official`. -/
theorem c10_patch_authorization_precedes_validation
    (session : SessionUser) (body : PatchBody) (store : List Incident)
    (now : Nat) :
    (session.userType ≠ "official" →
      (updateStatus session body store now).fst = .forbidden) ∧
    (∀ m, (updateStatus session body store now).fst = .validationErr m →
      session.userType = "official") := by
  constructor
  · intro h
    simp [updateStatus, h]
  · intro m hm
    by_contra h
    simp [updateStatus, h] at hm

/-- Witness for C10: a caller of role `user` sending a body with both
fields missing receives Forbidden, not a ValidationError. -/
theorem c10_patch_authorization_precedes_validation_witness :
    (updateStatus ⟨"bob@x", "Bob", "user"⟩ ⟨none, none⟩ [sampleInc] 7).fst =
      .forbidden :=
  (c10_patch_authorization_precedes_validation _ _ _ _).1 (by decide)

/-- C2: in the DELETE branch, a missing target yields NotFound with the
store unchanged, and this existence lookup is settled before any
ownership or role consideration; a caller who is neither the owner (by
`reportedBy.email`) nor of role `official` gets Forbidden with the store
unchanged; an owner or an `official` gets the record removed, and when
the store ids are pairwise distinct no record with the target id
survives the removal. -/
theorem c2_delete_existence_then_ownership
    (session : SessionUser) (idq : Option String) (store : List Incident)
    (htr : truthy idq = true) :
    (store.find? (fun r => r.id = idq.getD "") = none →
      deleteIncident session idq store = (.notFound, store)) ∧
    (∀ inc, store.find? (fun r => r.id = idq.getD "") = some inc →
      (inc.reportedBy.email ≠ session.email → session.userType ≠ "official" →
        deleteIncident session idq store = (.forbidden, store)) ∧
      ((inc.reportedBy.email = session.email ∨ session.userType = "official") →
        deleteIncident session idq store =
          (.ok, deleteFirst (fun r => r.id = idq.getD "") store) ∧
        ((store.map Incident.id).Nodup →
          ∀ r ∈ (deleteIncident session idq store).snd,
            r.id ≠ idq.getD ""))) := by
  refine ⟨fun hnone => ?_, fun inc hfind => ⟨fun hnown hnoff => ?_, fun hperm => ?_⟩⟩
  · simp [deleteIncident, htr, hnone]
  · simp [deleteIncident, htr, hfind, hnown, hnoff]
  · have hok : deleteIncident session idq store =
        (.ok, deleteFirst (fun r => r.id = idq.getD "") store) := by
      rcases hperm with hown | hoff
      · simp [deleteIncident, htr, hfind, hown]
      · simp [deleteIncident, htr, hfind, hoff]
    refine ⟨hok, fun hnd r hr => ?_⟩
    rw [hok] at hr
    exact deleteFirst_id_not_mem _ store hnd r hr

/-- Witness for C2: on a two-record store, a caller who owns neither
record and is not an official gets Forbidden for record 1, an absent id
yields NotFound, and the owner of record 1 deletes it so that no record
with id 1 remains. -/
theorem c2_delete_existence_then_ownership_witness :
    deleteIncident ⟨"carol@x", "Carol", "user"⟩ (some "1")
        [sampleInc, sampleInc2] = (.forbidden, [sampleInc, sampleInc2]) ∧
    deleteIncident ⟨"carol@x", "Carol", "user"⟩ (some "9")
        [sampleInc, sampleInc2] = (.notFound, [sampleInc, sampleInc2]) ∧
    deleteIncident ⟨"alice@x", "Alice", "user"⟩ (some "1")
        [sampleInc, sampleInc2] = (.ok, [sampleInc2]) := by
  refine ⟨?_, ?_, ?_⟩
  · exact ((c2_delete_existence_then_ownership _ _ _ (by decide)).2 sampleInc
      (by decide)).1 (by decide) (by decide)
  · exact (c2_delete_existence_then_ownership _ _ _ (by decide)).1 (by decide)
  · exact (((c2_delete_existence_then_ownership _ _ _ (by decide)).2 sampleInc
      (by decide)).2 (Or.inl (by decide))).1

end IncidentApi

namespace IncidentApi

/-- Facts holding of any successful run of the POST branch: the created
incident has status `pending`, an empty comment list, it is appended to
the store, and its `reportedBy` is the snapshot of whichever user record
the caller email resolved to. -/
theorem createIncident_created_facts (session : SessionUser)
    (fields : CreateFields) (photo : Option String) (users : List UserRec)
    (store : List Incident) (now : Nat) (newId : String) (inc : Incident)
    (store2 : List Incident)
    (hc : createIncident session fields photo users store now newId =
      (.created inc, store2)) :
    inc.status = "pending" ∧ inc.comments = [] ∧ store2 = store ++ [inc] ∧
    ∀ user, users.find? (fun u => u.email = session.email) = some user →
      inc.reportedBy = ⟨user.uid, user.name, user.email⟩ := by
  by_cases hv : (!(truthy fields.title) || !(truthy fields.location) ||
      !(truthy fields.type) || !(truthy fields.severity)) = true
  · rw [createIncident, if_pos hv] at hc
    exact absurd (congrArg Prod.fst hc) (by simp)
  · rw [createIncident, if_neg hv] at hc
    cases hfind : users.find? (fun u => u.email = session.email) with
    | none =>
      rw [hfind] at hc
      exact absurd (congrArg Prod.fst hc) (by simp)
    | some user =>
      rw [hfind] at hc
      have h1 := congrArg Prod.fst hc
      have h2 := congrArg Prod.snd hc
      simp only at h1 h2
      cases h1
      refine ⟨rfl, rfl, h2.symm, fun u hu => ?_⟩
      obtain rfl : user = u := Option.some.inj hu
      rfl

/-- C7: a successful create by an authenticated caller resolving to a
known user record stores an incident with status `pending`, no comments,
and `reportedBy` equal to the snapshot of the resolved user record
(identifier, name, email), whatever `reportedBy` value the caller may
have supplied in the form fields. -/
theorem c7_create_stores_caller_snapshot (session : SessionUser)
    (fields : CreateFields) (photo : Option String) (users : List UserRec)
    (store : List Incident) (now : Nat) (newId : String) (user : UserRec)
    (inc : Incident) (store2 : List Incident)
    (hu : users.find? (fun u => u.email = session.email) = some user)
    (hc : createIncident session fields photo users store now newId =
      (.created inc, store2)) :
    inc.status = "pending" ∧ inc.comments = [] ∧
    inc.reportedBy = ⟨user.uid, user.name, user.email⟩ ∧
    store2 = store ++ [inc] := by
  obtain ⟨h1, h2, h3, h4⟩ :=
    createIncident_created_facts session fields photo users store now newId
      inc store2 hc
  exact ⟨h1, h2, h4 user hu, h3⟩

/-- The incident literal produced by the concrete create call used in
the C7 witness. -/
def createdSample : Incident :=
  { id := "7"
    title := "Bus collision"
    location := ⟨"5th Ave", none⟩
    type := "collision"
    severity := "high"
    description := ""
    photoUrl := none
    status := "pending"
    reportedBy := ⟨"u1", "Alice", "alice@x"⟩
    comments := []
    createdAt := 3
    updatedAt := 3
    updatedBy := none }

/-- Witness for C7: Alice creates an incident while the form smuggles in
a foreign `reportedBy`; the stored record still carries the snapshot of
the resolved user record for Alice. -/
theorem c7_create_stores_caller_snapshot_witness :
    createdSample.status = "pending" ∧ createdSample.comments = [] ∧
    createdSample.reportedBy = ⟨"u1", "Alice", "alice@x"⟩ ∧
    [createdSample] = [] ++ [createdSample] :=
  c7_create_stores_caller_snapshot ⟨"alice@x", "Alice", "user"⟩
    ⟨some "Bus collision", some "5th Ave", some "collision", some "high",
      none, some ⟨"evil", "Eve", "eve@x"⟩⟩
    none [⟨"u1", "Alice", "alice@x"⟩] [] 3 "7" ⟨"u1", "Alice", "alice@x"⟩
    createdSample [createdSample] (by decide) (by decide)

end IncidentApi

namespace IncidentApi

/-- Every member of the store after `updateFirst` is either an original
record or the image under `f` of an original record. -/
theorem mem_updateFirst (p : Incident → Bool) (f : Incident → Incident) :
    ∀ l r, r ∈ updateFirst p f l → r ∈ l ∨ ∃ x, x ∈ l ∧ r = f x := by
  intro l
  induction l with
  | nil => intro r hr; simp [updateFirst] at hr
  | cons a rs ih =>
    intro r hr
    by_cases hp : p a = true
    · have heq : updateFirst p f (a :: rs) = f a :: rs := by
        simp [updateFirst, hp]
      rw [heq] at hr
      rcases List.mem_cons.mp hr with rfl | h
      · exact Or.inr ⟨a, List.mem_cons_self a rs, rfl⟩
      · exact Or.inl (List.mem_cons_of_mem _ h)
    · have heq : updateFirst p f (a :: rs) = a :: updateFirst p f rs := by
        simp [updateFirst, hp]
      rw [heq] at hr
      rcases List.mem_cons.mp hr with rfl | h
      · exact Or.inl (List.mem_cons_self _ _)
      · rcases ih r h with h2 | ⟨x, hx, rfl⟩
        · exact Or.inl (List.mem_cons_of_mem _ h2)
        · exact Or.inr ⟨x, List.mem_cons_of_mem _ hx, rfl⟩
/-- Record members of a store survive into `deleteFirst` only from the
original store. -/
theorem mem_of_mem_deleteFirst (p : Incident → Bool) :
    ∀ l r, r ∈ deleteFirst p l → r ∈ l := by
  intro l
  induction l with
  | nil => intro r hr; simp [deleteFirst] at hr
  | cons a rs ih =>
    intro r hr
    by_cases hp : p a = true
    · rw [show deleteFirst p (a :: rs) = rs by simp [deleteFirst, hp]] at hr
      exact List.mem_cons_of_mem _ hr
    · rw [show deleteFirst p (a :: rs) = a :: deleteFirst p rs by
        simp [deleteFirst, hp]] at hr
      rcases List.mem_cons.mp hr with rfl | h
      · exact List.mem_cons_self _ _
      · exact List.mem_cons_of_mem _ (ih r h)

/-- The store after a PATCH request is either untouched or the result of
stamping the first matching record with a status value drawn from the
four-value list. -/
theorem updateStatus_snd_cases (session : SessionUser) (body : PatchBody)
    (store : List Incident) (now : Nat) :
    (updateStatus session body store now).snd = store ∨
    ∃ s, body.status = some s ∧ s ∈ validStatuses ∧
      (updateStatus session body store now).snd =
        updateFirst (fun r => r.id = body.id.getD "")
          (fun r =>
            { r with
                status := s
                updatedAt := now
                updatedBy := some ⟨session.name, session.email⟩ })
          store := by
  by_cases h1 : session.userType = "official"
  · by_cases h2 : (!(truthy body.id) || !(truthy body.status)) = true
    · left; simp [updateStatus, h1, h2]
    · by_cases h3 : body.status.getD "" ∈ validStatuses
      · by_cases h4 :
            ((store.find? (fun r => r.id = body.id.getD "")).isNone) = true
        · left; simp [updateStatus, h1, h2, h3, h4]
        · right
          refine ⟨body.status.getD "", ?_, h3, ?_⟩
          · cases hb : body.status with
            | none => rw [hb] at h2; simp [truthy] at h2
            | some t => simp [hb]
          · simp [updateStatus, h1, h2, h3, h4]
      · left; simp [updateStatus, h1, h2, h3]
  · left; simp [updateStatus, h1]

/-- C3 counterexample: a caller of role `user` asking to set the status
to `archived` (outside the four-value set) is answered with Forbidden,
not with a ValidationError, because the role gate of the PATCH branch
runs before the status validation; the store is still left unchanged. -/
theorem c3_counterexample_invalid_status_forbidden :
    updateStatus ⟨"bob@x", "Bob", "user"⟩ ⟨some "1", some "archived"⟩
      [sampleInc] 7 = (.forbidden, [sampleInc]) := by
  decide

/-- C3 (amended): creation always persists status `pending`; a status
update whose target status lies outside the four-value set performs no
write, and when the caller is an `official` it is answered with a
ValidationError (a non-`official` caller is stopped earlier with
Forbidden); membership of `status` in the four-value set is preserved by
the PATCH branch, and the DELETE branch introduces no record. -/
theorem c3_status_invariant_amended (session : SessionUser)
    (store : List Incident) (now : Nat) :
    (∀ fields photo users newId inc store2,
      createIncident session fields photo users store now newId =
        (.created inc, store2) →
      inc.status = "pending" ∧ store2 = store ++ [inc]) ∧
    (∀ body s, body.status = some s → s ∉ validStatuses →
      (updateStatus session body store now).snd = store ∧
      (session.userType = "official" →
        (updateStatus session body store now).fst =
          .validationErr "Incident ID and status are required" ∨
        (updateStatus session body store now).fst =
          .validationErr "Invalid status value")) ∧
    (∀ body, (∀ r ∈ store, r.status ∈ validStatuses) →
      ∀ r ∈ (updateStatus session body store now).snd,
        r.status ∈ validStatuses) ∧
    (∀ idq r, r ∈ (deleteIncident session idq store).snd → r ∈ store) := by
  refine ⟨?_, ?_, ?_, ?_⟩
  · intro fields photo users newId inc store2 hc
    obtain ⟨h1, _, h3, _⟩ :=
      createIncident_created_facts session fields photo users store now newId
        inc store2 hc
    exact ⟨h1, h3⟩
  · intro body s hbs hs
    have hmem : body.status.getD "" ∉ validStatuses := by
      rw [hbs]
      simpa using hs
    by_cases h1 : session.userType = "official"
    · by_cases h2 : (!(truthy body.id) || !(truthy body.status)) = true
      · constructor
        · simp [updateStatus, h1, h2]
        · intro _; left; simp [updateStatus, h1, h2]
      · constructor
        · simp [updateStatus, h1, h2, hmem]
        · intro _; right; simp [updateStatus, h1, h2, hmem]
    · constructor
      · simp [updateStatus, h1]
      · intro hoff; exact absurd hoff h1
  · intro body hstore r hr
    rcases updateStatus_snd_cases session body store now with heq | ⟨s, _, hsv, heq⟩
    · rw [heq] at hr
      exact hstore r hr
    · rw [heq] at hr
      rcases mem_updateFirst _ _ store r hr with h | ⟨x, hx, rfl⟩
      · exact hstore r h
      · simpa using hsv
  · intro idq r hr
    by_cases ht : truthy idq = true
    · cases hfind : store.find? (fun x => x.id = idq.getD "") with
      | none =>
        rw [show (deleteIncident session idq store).snd = store by
          simp [deleteIncident, ht, hfind]] at hr
        exact hr
      | some inc =>
        by_cases hperm : inc.reportedBy.email ≠ session.email ∧
            session.userType ≠ "official"
        · rw [show (deleteIncident session idq store).snd = store by
            simp [deleteIncident, ht, hfind, hperm.1, hperm.2]] at hr
          exact hr
        · rw [show (deleteIncident session idq store).snd =
              deleteFirst (fun x => x.id = idq.getD "") store by
            simp [deleteIncident, ht, hfind, hperm]] at hr
          exact mem_of_mem_deleteFirst _ store r hr
    · rw [show (deleteIncident session idq store).snd = store by
        simp [deleteIncident, ht]] at hr
      exact hr

/-- Witness for C3 (amended): an official asking for status `archived`
on an existing record gets the invalid-status ValidationError and the
store is unchanged. -/
theorem c3_status_invariant_amended_witness :
    (updateStatus ⟨"carol@x", "Carol", "official"⟩
        ⟨some "1", some "archived"⟩ [sampleInc] 7).snd = [sampleInc] ∧
    ((updateStatus ⟨"carol@x", "Carol", "official"⟩
        ⟨some "1", some "archived"⟩ [sampleInc] 7).fst =
      .validationErr "Incident ID and status are required" ∨
    (updateStatus ⟨"carol@x", "Carol", "official"⟩
        ⟨some "1", some "archived"⟩ [sampleInc] 7).fst =
      .validationErr "Invalid status value") := by
  have h := ((c3_status_invariant_amended ⟨"carol@x", "Carol", "official"⟩
      [sampleInc] 7).2.1 ⟨some "1", some "archived"⟩ "archived"
      (by decide) (by decide))
  exact ⟨h.1, h.2 (by decide)⟩

end IncidentApi

namespace IncidentApi

/-- Decomposition of a store around the first record matching `p`:
`updateFirst` rewrites exactly that record and nothing else. -/
theorem updateFirst_decomp (p : Incident → Bool) (f : Incident → Incident) :
    ∀ store x, store.find? p = some x →
      ∃ pre post, store = pre ++ x :: post ∧ (∀ r ∈ pre, p r = false) ∧
        p x = true ∧ updateFirst p f store = pre ++ f x :: post := by
  intro store
  induction store with
  | nil => intro x hx; simp at hx
  | cons a rs ih =>
    intro x hx
    by_cases hp : p a = true
    · rw [List.find?_cons_of_pos _ hp] at hx
      obtain rfl := Option.some.inj hx
      refine ⟨[], rs, by simp, by simp, hp, ?_⟩
      simp [updateFirst, hp]
    · have hpf : p a = false := by simpa using hp
      rw [List.find?_cons_of_neg _ hp] at hx
      obtain ⟨pre, post, hsplit, hpre, hpx, hupd⟩ := ih x hx
      refine ⟨a :: pre, post, by simp [hsplit], ?_, hpx, ?_⟩
      · intro r hr
        rcases List.mem_cons.mp hr with rfl | hr2
        · exact hpf
        · exact hpre r hr2
      · rw [show updateFirst p f (a :: rs) = a :: updateFirst p f rs by
          simp [updateFirst, hpf]]
        simp [hupd]

/-- C8: a successful status update rewrites exactly one record, the
first one carrying the requested id, and on that record it sets exactly
`status`, `updatedAt` (to the current time) and `updatedBy` (to the
snapshot of the acting official); `title`, `location`, `type`,
`severity`, `description`, `photoUrl`, `reportedBy`, `comments` and
`createdAt` are carried over unchanged, as the record update shows, and
every other record of the store is untouched. -/
theorem c8_update_status_frame (session : SessionUser) (body : PatchBody)
    (store : List Incident) (now : Nat) (store2 : List Incident)
    (h : updateStatus session body store now = (.ok, store2)) :
    ∃ id s pre old post,
      body.id = some id ∧ body.status = some s ∧
      store = pre ++ old :: post ∧ (∀ r ∈ pre, r.id ≠ id) ∧ old.id = id ∧
      store2 = pre ++
        ({ old with
            status := s
            updatedAt := now
            updatedBy := some ⟨session.name, session.email⟩ } :: post) := by
  by_cases h1 : session.userType = "official"
  · by_cases h2 : (!(truthy body.id) || !(truthy body.status)) = true
    · rw [updateStatus] at h
      simp [h1, h2] at h
    · by_cases h3 : body.status.getD "" ∈ validStatuses
      · cases hfind : store.find? (fun r => r.id = body.id.getD "") with
        | none =>
          rw [updateStatus] at h
          simp [h1, h2, h3, hfind] at h
        | some old =>
          have hsnd : store2 =
              updateFirst (fun r => r.id = body.id.getD "")
                (fun r =>
                  { r with
                      status := body.status.getD ""
                      updatedAt := now
                      updatedBy := some ⟨session.name, session.email⟩ })
                store := by
            have := congrArg Prod.snd h
            simp only [updateStatus, h1, h2, h3, hfind] at this
            simp [h1, h2, h3, hfind] at this
            exact this.symm
          obtain ⟨pre, post, hsplit, hpre, hpx, hupd⟩ :=
            updateFirst_decomp (fun r => r.id = body.id.getD "")
              (fun r =>
                { r with
                    status := body.status.getD ""
                    updatedAt := now
                    updatedBy := some ⟨session.name, session.email⟩ })
              store old hfind
          have hid : body.id = some (body.id.getD "") := by
            cases hb : body.id with
            | none => rw [hb] at h2; simp [truthy] at h2
            | some t => simp [hb]
          have hst : body.status = some (body.status.getD "") := by
            cases hb : body.status with
            | none => rw [hb] at h2; simp [truthy] at h2
            | some t => simp [hb]
          refine ⟨body.id.getD "", body.status.getD "", pre, old, post,
            hid, hst, hsplit, ?_, by simpa using hpx, ?_⟩
          · intro r hr
            have := hpre r hr
            simpa using this
          · rw [hsnd, hupd]
      · rw [updateStatus] at h
        simp [h1, h2, h3] at h
  · rw [updateStatus] at h
    simp [h1] at h

/-- Witness for C8: official Carol sets the status of record 1 in a
two-record store; the decomposition names the untouched prefix
`[sampleInc2]`, the rewritten record `sampleInc`, and the empty
suffix. -/
theorem c8_update_status_frame_witness :
    ∃ id s pre old post,
      (some "1" : Option String) = some id ∧
      (some "in_progress" : Option String) = some s ∧
      [sampleInc2, sampleInc] = pre ++ old :: post ∧
      (∀ r ∈ pre, r.id ≠ id) ∧ old.id = id ∧
      [sampleInc2,
        { sampleInc with
            status := "in_progress"
            updatedAt := 10
            updatedBy := some ⟨"Carol", "carol@x"⟩ }] = pre ++
        ({ old with
            status := s
            updatedAt := 10
            updatedBy := some ⟨"Carol", "carol@x"⟩ } :: post) :=
  c8_update_status_frame ⟨"carol@x", "Carol", "official"⟩
    ⟨some "1", some "in_progress"⟩ [sampleInc2, sampleInc] 10
    [sampleInc2,
      { sampleInc with
          status := "in_progress"
          updatedAt := 10
          updatedBy := some ⟨"Carol", "carol@x"⟩ }]
    (by decide)

end IncidentApi

namespace IncidentApi

/-- C9: a `page` query value parsing to 0 (or absent / non-numeric,
modelled as `none`) makes the GET branch behave exactly as page 1, and a
`limit` value parsing to 0 (or absent / non-numeric) exactly as limit
10: the falsy numeric value 0 is coerced to the default by the `||`
defaulting, so `totalPages` is never computed with limit 0 and the skip
offset is never computed from page 0. -/
theorem c9_falsy_page_limit_fall_back_to_defaults (searchQ : Option String)
    (store : List Incident) (now : Nat) :
    (∀ limitQ,
      listIncidents (some 0) limitQ searchQ store now =
        listIncidents (some 1) limitQ searchQ store now ∧
      listIncidents none limitQ searchQ store now =
        listIncidents (some 1) limitQ searchQ store now) ∧
    (∀ pageQ,
      listIncidents pageQ (some 0) searchQ store now =
        listIncidents pageQ (some 10) searchQ store now ∧
      listIncidents pageQ none searchQ store now =
        listIncidents pageQ (some 10) searchQ store now) ∧
    jsOr (some 0) 1 = 1 ∧ jsOr none 1 = 1 ∧
    jsOr (some 0) 10 = 10 ∧ jsOr none 10 = 10 := by
  refine ⟨fun limitQ => ⟨?_, ?_⟩, fun pageQ => ⟨?_, ?_⟩, rfl, rfl, rfl, rfl⟩ <;>
    simp [listIncidents, jsOr]

end IncidentApi

namespace IncidentApi

/-- The total page count `(total + limit - 1) / limit` is the exact
ceiling of `total / limit`: it is at least enough pages to hold every
record and less than one spare page. -/
theorem ceilDiv_characterization (t l : Nat) (hl : 1 ≤ l) :
    t ≤ ceilDiv t l * l ∧ ceilDiv t l * l < t + l := by
  have h1 : ceilDiv t l * l ≤ t + l - 1 := Nat.div_mul_le_self (t + l - 1) l
  have h2 : t + l - 1 < ceilDiv t l * l + l := by
    have h3 : t + l - 1 < (ceilDiv t l + 1) * l :=
      (Nat.div_lt_iff_lt_mul (by omega)).mp (Nat.lt_succ_self (ceilDiv t l))
    rw [Nat.succ_mul] at h3
    exact h3
  omega

/-- C6: for a list request whose effective page and limit are at least
one, the response window is the skip/limit slice of the filtered store
sorted by `createdAt` descending, holds at most `limit` records and is
itself sorted; `total` is the full filtered count independent of the
window, `page` is echoed, `totalPages` is the exact ceiling of
`total / limit`, and a page beyond `totalPages` yields an empty window
rather than an error. -/
theorem c6_pagination_window (pageQ limitQ : Option Int)
    (searchQ : Option String) (store : List Incident) (now : Nat)
    (hp : 1 ≤ jsOr pageQ 1) (hl : 1 ≤ jsOr limitQ 10) :
    (listIncidents pageQ limitQ searchQ store now).incidents =
      (((List.insertionSort byCreatedAtDesc
            (store.filter (matchesSearch searchQ))).drop
          (((jsOr pageQ 1 - 1) * jsOr limitQ 10).toNat)).take
        (jsOr limitQ 10).toNat).map (normalizeIncident now) ∧
    (listIncidents pageQ limitQ searchQ store now).incidents.length ≤
      (jsOr limitQ 10).toNat ∧
    (listIncidents pageQ limitQ searchQ store now).total =
      (store.filter (matchesSearch searchQ)).length ∧
    (listIncidents pageQ limitQ searchQ store now).page = jsOr pageQ 1 ∧
    ((listIncidents pageQ limitQ searchQ store now).total ≤
        (listIncidents pageQ limitQ searchQ store now).totalPages *
          (jsOr limitQ 10).toNat ∧
      (listIncidents pageQ limitQ searchQ store now).totalPages *
          (jsOr limitQ 10).toNat <
        (listIncidents pageQ limitQ searchQ store now).total +
          (jsOr limitQ 10).toNat) ∧
    (((listIncidents pageQ limitQ searchQ store now).totalPages : Int) <
        jsOr pageQ 1 →
      (listIncidents pageQ limitQ searchQ store now).incidents = []) ∧
    (((List.insertionSort byCreatedAtDesc
          (store.filter (matchesSearch searchQ))).drop
        (((jsOr pageQ 1 - 1) * jsOr limitQ 10).toNat)).take
      (jsOr limitQ 10).toNat).Pairwise byCreatedAtDesc := by
  have hl0 : 1 ≤ (jsOr limitQ 10).toNat := by omega
  refine ⟨rfl, ?_, rfl, rfl, ?_, ?_, ?_⟩
  · rw [show (listIncidents pageQ limitQ searchQ store now).incidents =
        (((List.insertionSort byCreatedAtDesc
              (store.filter (matchesSearch searchQ))).drop
            (((jsOr pageQ 1 - 1) * jsOr limitQ 10).toNat)).take
          (jsOr limitQ 10).toNat).map (normalizeIncident now) from rfl]
    rw [List.length_map]
    exact (List.length_take_le _ _)
  · exact ceilDiv_characterization _ _ hl0
  · intro hbeyond
    have hcast : ((jsOr limitQ 10).toNat : Int) = jsOr limitQ 10 :=
      Int.toNat_of_nonneg (by omega)
    have htq := (ceilDiv_characterization
      (store.filter (matchesSearch searchQ)).length (jsOr limitQ 10).toNat
      hl0).1
    have htqi : ((store.filter (matchesSearch searchQ)).length : Int) ≤
        ((ceilDiv (store.filter (matchesSearch searchQ)).length
            (jsOr limitQ 10).toNat : Nat) : Int) * jsOr limitQ 10 := by
      rw [← hcast]
      exact_mod_cast htq
    have hq1 : ((ceilDiv (store.filter (matchesSearch searchQ)).length
        (jsOr limitQ 10).toNat : Nat) : Int) ≤ jsOr pageQ 1 - 1 := by
      have : ((listIncidents pageQ limitQ searchQ store now).totalPages : Int) =
          ((ceilDiv (store.filter (matchesSearch searchQ)).length
            (jsOr limitQ 10).toNat : Nat) : Int) := rfl
      rw [this] at hbeyond
      omega
    have hmul : ((ceilDiv (store.filter (matchesSearch searchQ)).length
            (jsOr limitQ 10).toNat : Nat) : Int) * jsOr limitQ 10 ≤
        (jsOr pageQ 1 - 1) * jsOr limitQ 10 :=
      mul_le_mul_of_nonneg_right hq1 (by omega)
    have htle : ((store.filter (matchesSearch searchQ)).length : Int) ≤
        (jsOr pageQ 1 - 1) * jsOr limitQ 10 := le_trans htqi hmul
    have hlen : (List.insertionSort byCreatedAtDesc
        (store.filter (matchesSearch searchQ))).length =
        (store.filter (matchesSearch searchQ)).length :=
      (List.perm_insertionSort byCreatedAtDesc
        (store.filter (matchesSearch searchQ))).length_eq
    have hdrop : (List.insertionSort byCreatedAtDesc
        (store.filter (matchesSearch searchQ))).drop
          (((jsOr pageQ 1 - 1) * jsOr limitQ 10).toNat) = [] := by
      apply List.drop_eq_nil_of_le
      rw [hlen]
      omega
    rw [show (listIncidents pageQ limitQ searchQ store now).incidents =
        (((List.insertionSort byCreatedAtDesc
              (store.filter (matchesSearch searchQ))).drop
            (((jsOr pageQ 1 - 1) * jsOr limitQ 10).toNat)).take
          (jsOr limitQ 10).toNat).map (normalizeIncident now) from rfl]
    rw [hdrop]
    simp
  · exact List.Pairwise.sublist
      ((List.take_sublist _ _).trans (List.drop_sublist _ _))
      (List.sorted_insertionSort byCreatedAtDesc
        (store.filter (matchesSearch searchQ)))

/-- Witness for C6: page 2 with limit 1 over a two-record store; the
effective page and limit are positive and the echoed page is 2. -/
theorem c6_pagination_window_witness :
    1 ≤ jsOr (some 2) 1 ∧ 1 ≤ jsOr (some 1) 10 ∧
    (listIncidents (some 2) (some 1) none [sampleInc, sampleInc2] 0).page =
      jsOr (some 2) 1 :=
  ⟨by decide, by decide,
    (c6_pagination_window (some 2) (some 1) none [sampleInc, sampleInc2] 0
      (by decide) (by decide)).2.2.2.1⟩

end IncidentApi

namespace IncidentApi

/-- A sample incident none of whose searched fields contains a dot or
any other regex metacharacter. -/
def sampleInc3 : Incident :=
  { sampleInc with
      id := "3"
      title := "abc"
      location := ⟨"z", none⟩
      type := "t"
      description := "" }

/-- On a pattern free of the any-character metacharacter, one step of
the regex matcher is the literal case-insensitive prefix test. -/
theorem patHere_eq_isPrefixCI (ps : List Char) (hdot : '.' ∉ ps) :
    ∀ cs, patHere ps cs = isPrefixCI ps cs := by
  induction ps with
  | nil => intro cs; rfl
  | cons p ps ih =>
    intro cs
    cases cs with
    | nil => rfl
    | cons c cs =>
      have hp : p ≠ '.' := fun h => hdot (h ▸ List.mem_cons_self p ps)
      have hd2 : '.' ∉ ps := fun h => hdot (List.mem_cons_of_mem p h)
      simp [patHere, isPrefixCI, hp, ih hd2 cs]

/-- On a search term free of the any-character metacharacter, the regex
test of the store is exactly the literal case-insensitive unanchored
substring test. -/
theorem regexTestI_eq_containsSubstrCI (s t : String) (hdot : '.' ∉ s.data) :
    regexTestI s t = containsSubstrCI s t := by
  simp only [regexTestI, containsSubstrCI]
  congr 1
  funext suf
  exact patHere_eq_isPrefixCI s.data hdot suf

/-- C4 counterexample: the search term `a.c` contains the any-character
metacharacter, and the GET filter matches a record titled `abc` (it is
counted in `total`) although `a.c` does not occur literally, even up to
case, as a substring of any of the four searched fields. -/
theorem c4_counterexample_metacharacter_term :
    matchesSearch (some "a.c") sampleInc3 = true ∧
    (listIncidents none none (some "a.c") [sampleInc3] 0).total = 1 ∧
    containsSubstrCI "a.c" sampleInc3.title = false ∧
    containsSubstrCI "a.c" sampleInc3.location.address = false ∧
    containsSubstrCI "a.c" sampleInc3.type = false ∧
    containsSubstrCI "a.c" sampleInc3.description = false := by
  decide

/-- C4 (amended): with no search term the filter matches every record;
with a search term free of regex metacharacters a record matches exactly
when the term occurs case-insensitively as an unanchored substring of
`title`, `location.address`, `type` or `description`; a term containing
metacharacters is instead interpreted as a pattern over the fields (see
the counterexample). -/
theorem c4_search_filter_amended (r : Incident) (s : String)
    (hs : s.isEmpty = false) (hmeta : ∀ c ∈ s.data, c ∉ regexMeta) :
    matchesSearch none r = true ∧
    matchesSearch (some s) r =
      (containsSubstrCI s r.title || containsSubstrCI s r.location.address ||
        containsSubstrCI s r.type || containsSubstrCI s r.description) := by
  have hdot : '.' ∉ s.data := fun h => (hmeta _ h) (by decide)
  refine ⟨rfl, ?_⟩
  simp only [matchesSearch, hs, if_false, Bool.false_eq_true,
    regexTestI_eq_containsSubstrCI _ _ hdot]

/-- Witness for C4 (amended): the metacharacter-free term `abc` matches
the record titled `abc` and the no-term filter matches it as well. -/
theorem c4_search_filter_amended_witness :
    ("abc" : String).isEmpty = false ∧
    (matchesSearch none sampleInc3 = true ∧
      matchesSearch (some "abc") sampleInc3 =
        (containsSubstrCI "abc" sampleInc3.title ||
          containsSubstrCI "abc" sampleInc3.location.address ||
          containsSubstrCI "abc" sampleInc3.type ||
          containsSubstrCI "abc" sampleInc3.description)) :=
  ⟨by decide, c4_search_filter_amended sampleInc3 "abc" (by decide) (by decide)⟩

/-- C5: the failing input for the missing escaping.  The caller-supplied
term `.` reaches the pattern compiler of the store unescaped, so as the
any-character metacharacter it matches the record titled `abc` (counted
in `total`), although no searched field contains a literal dot; the term
is thus interpreted as a broader pattern than its literal text, against
the sanitize-then-match requirement of the spec. -/
theorem c5_unescaped_term_acts_as_pattern :
    matchesSearch (some ".") sampleInc3 = true ∧
    (listIncidents none none (some ".") [sampleInc3] 0).total = 1 ∧
    containsSubstrCI "." sampleInc3.title = false ∧
    containsSubstrCI "." sampleInc3.location.address = false ∧
    containsSubstrCI "." sampleInc3.type = false ∧
    containsSubstrCI "." sampleInc3.description = false := by
  decide

end IncidentApi
